import Mathlib

/-!
Shallow embedding of drogon's ListenerManager (src/lib/src/ListenerManager.h
and src/lib/src/ListenerManager.cc) and proofs about its listener-topology
construction.

The embedding keeps the source structure: `createListenersLinux` is the
`#ifdef __linux__` branch of `ListenerManager::createListeners` (the
reuseport-capable, per-worker-loop strategy), `createListenersNonLinux` is the
`#else` branch (the single dedicated listening thread strategy), and
`createListeners` dispatches on the platform capability flag.

External collaborators (trantor) are modelled as parameters of an `Env`
record: `reusePort` is `app().reusePort()`, `supportsTls` is
`utils::supportsTls()`, `isUnspecified` is `InetAddress::isUnspecified()`
(address-parse failure), and `bindOk` tells whether the throwaway
`TcpServer` bind probe succeeds.  Event loops are identified by `Nat` ids and
the three std::function callback slots by `Option Nat` identity tokens (the
function bodies themselves are irrelevant to the claims; only identity and
presence matter).

A fatal path (`LOG_FATAL` + `abort()`, or `exit(1)`) is modelled as an
`Except.error` carrying the `Fatal` reason: the process terminates with a
nonzero status and no topology survives.  The `Event` trace records the
order of file-lock acquisition, bind probes, lock release and server
construction in the Linux branch; `StopEvent` records the action order of
`stopListening`.
-/

namespace Drogon

/-- trantor::InetAddress as constructed by `InetAddress(ip, port, isIpv6)`:
the literal, the port and the IPv6 flag chosen by the caller. -/
structure InetAddress where
  ip : String
  port : Nat
  isIpv6 : Bool
deriving DecidableEq, Repr, Inhabited

/-- ListenerManager::ListenerInfo (ListenerManager.h lines 81-116): one
declared listener spec, immutable once stored. -/
structure ListenerInfo where
  ip : String
  port : Nat
  useSSL : Bool
  certFile : String
  keyFile : String
  useOldTLS : Bool
  sslConfCmds : List (String × String)
deriving DecidableEq, Repr, Inhabited

/-- trantor::TLSPolicy as used by createListeners: cert path, key path,
configuration commands and the legacy-TLS flag. -/
structure TLSPolicy where
  certPath : String
  keyPath : String
  confCmds : List (String × String)
  useOldTLS : Bool
deriving DecidableEq, Repr, Inhabited

/-- trantor::TLSPolicy::defaultServerPolicy(cert, key). -/
def TLSPolicy.defaultServerPolicy (cert key : String) : TLSPolicy :=
  ⟨cert, key, [], false⟩

/-- trantor::TLSPolicy::setConfCmds. -/
def TLSPolicy.setConfCmds (p : TLSPolicy) (cmds : List (String × String)) : TLSPolicy :=
  { p with confCmds := cmds }

/-- trantor::TLSPolicy::setUseOldTLS. -/
def TLSPolicy.setUseOldTLS (p : TLSPolicy) (b : Bool) : TLSPolicy :=
  { p with useOldTLS := b }

/-- An HttpServer instance as created by createListeners: the event loop it
is bound to, its listen address and name, the three optional callbacks, the
optional TLS policy and the io-loop set injected by `setIoLoops`. -/
structure HttpServer where
  loop : Nat
  addr : InetAddress
  name : String
  beforeListenSockOptCallback : Option Nat
  afterAcceptSockOptCallback : Option Nat
  connectionCallback : Option Nat
  sslPolicy : Option TLSPolicy
  ioLoops : List Nat
deriving DecidableEq, Repr, Inhabited

/-- The HttpServer constructor `HttpServer(loop, address, name)`: no
callbacks installed, no SSL, no io-loop set yet. -/
def HttpServer.make (loop : Nat) (addr : InetAddress) (name : String) : HttpServer :=
  ⟨loop, addr, name, none, none, none, none, []⟩

/-- HttpServer::setBeforeListenSockOptCallback. -/
def HttpServer.setBeforeListenSockOptCallback (s : HttpServer) (cb : Nat) : HttpServer :=
  { s with beforeListenSockOptCallback := some cb }

/-- HttpServer::setAfterAcceptSockOptCallback. -/
def HttpServer.setAfterAcceptSockOptCallback (s : HttpServer) (cb : Nat) : HttpServer :=
  { s with afterAcceptSockOptCallback := some cb }

/-- HttpServer::setConnectionCallback. -/
def HttpServer.setConnectionCallback (s : HttpServer) (cb : Nat) : HttpServer :=
  { s with connectionCallback := some cb }

/-- HttpServer::enableSSL. -/
def HttpServer.enableSSL (s : HttpServer) (p : TLSPolicy) : HttpServer :=
  { s with sslPolicy := some p }

/-- HttpServer::setIoLoops. -/
def HttpServer.setIoLoops (s : HttpServer) (loops : List Nat) : HttpServer :=
  { s with ioLoops := loops }

/-- HttpServer::address(), used by getListeners. -/
def HttpServer.address (s : HttpServer) : InetAddress := s.addr

/-- Environment facts supplied by the platform and by trantor, outside this
repository: the runtime reuse-port configuration, TLS build capability,
InetAddress parse failure (`isUnspecified`) and bind-probe outcome. -/
structure Env where
  reusePort : Bool
  supportsTls : Bool
  isUnspecified : InetAddress → Bool
  bindOk : InetAddress → Bool

/-- The fatal terminations of createListeners: `abort()` on an unparseable
address, `abort()` from the bind probe when the address is in use, and
`exit(1)` when SSL is requested without cert or key material. -/
inductive Fatal where
  | parseFailure (ip : String)
  | addressInUse (addr : InetAddress)
  | missingSslMaterial
deriving DecidableEq, Repr

/-- Observable startup actions of the Linux branch, tagged with the
(worker-loop index, listener index) pair being processed: exclusive
acquisition of the /tmp/drogon.lock file lock, the throwaway bind probe,
the lock release at the end of the probe scope, and the construction of the
real HttpServer instance. -/
inductive Event where
  | lockAcquire (i j : Nat)
  | bindProbe (i j : Nat) (addr : InetAddress)
  | lockRelease (i j : Nat)
  | construct (i j : Nat)
deriving DecidableEq, Repr

/-- Observable actions of stopListening: stop of the realized server at a
given index, quitting the dedicated listening loop, waiting for the
dedicated thread to exit. -/
inductive StopEvent where
  | stopServer (idx : Nat)
  | loopQuit
  | threadWait
deriving DecidableEq, Repr

/-- The ListenerManager state: declared specs, realized servers, the
dedicated listening thread (identified by its loop id) when present, and the
three shared callback slots. -/
structure ListenerManager where
  listeners : List ListenerInfo
  servers : List HttpServer
  listeningThread : Option Nat
  beforeListenSetSockOptCallback : Option Nat
  afterAcceptSetSockOptCallback : Option Nat
  connectionCallback : Option Nat
deriving DecidableEq, Repr, Inhabited

/-- A freshly constructed ListenerManager: nothing declared, nothing
realized, no dedicated thread, no callbacks. -/
def ListenerManager.fresh : ListenerManager :=
  ⟨[], [], none, none, none, none⟩

/-- ListenerManager::addListener (ListenerManager.cc lines 53-69): appends
the spec to listeners_.  (The SSL-without-TLS case only logs an error and
still stores the spec.) -/
def ListenerManager.addListener (m : ListenerManager) (ip : String) (port : Nat)
    (useSSL : Bool) (certFile : String) (keyFile : String) (useOldTLS : Bool)
    (sslConfCmds : List (String × String)) : ListenerManager :=
  { m with listeners :=
      m.listeners ++ [⟨ip, port, useSSL, certFile, keyFile, useOldTLS, sslConfCmds⟩] }

/-- ListenerManager::getListeners (ListenerManager.cc lines 71-80): the bound
address of every realized server instance. -/
def ListenerManager.getListeners (m : ListenerManager) : List InetAddress :=
  m.servers.map HttpServer.address

/-- The listen address the code builds for a spec: `isIpv6` is true exactly
when the literal contains a colon (`ip.find(':') != npos`). -/
def listenAddressOf (l : ListenerInfo) : InetAddress :=
  ⟨l.ip, l.port, l.ip.data.contains ':'⟩

/-- The per-(loop, listener) server construction of the `__linux__` branch of
ListenerManager::createListeners (ListenerManager.cc lines 114-157): create
the HttpServer on the given loop, install each callback that is set, and
when the listener wants SSL and the build supports TLS resolve cert/key
against the globals, with exit(1) when either resolves empty; the conf
commands are the global ones with the listener ones appended. -/
def buildServerLinux (env : Env) (m : ListenerManager)
    (globalCertFile globalKeyFile : String)
    (sslConfCmds : List (String × String)) (loopId : Nat) (l : ListenerInfo)
    (listenAddress : InetAddress) : Except Fatal HttpServer :=
  let serverPtr := HttpServer.make loopId listenAddress "drogon"
  let serverPtr :=
    match m.beforeListenSetSockOptCallback with
    | some cb => serverPtr.setBeforeListenSockOptCallback cb
    | none => serverPtr
  let serverPtr :=
    match m.afterAcceptSetSockOptCallback with
    | some cb => serverPtr.setAfterAcceptSockOptCallback cb
    | none => serverPtr
  let serverPtr :=
    match m.connectionCallback with
    | some cb => serverPtr.setConnectionCallback cb
    | none => serverPtr
  if l.useSSL && env.supportsTls then
    let cert := l.certFile
    let key := l.keyFile
    let cert := if cert == "" then globalCertFile else cert
    let key := if key == "" then globalKeyFile else key
    if cert == "" || key == "" then
      Except.error Fatal.missingSslMaterial
    else
      let cmds := sslConfCmds ++ l.sslConfCmds
      let policy := TLSPolicy.defaultServerPolicy cert key
      let policy := (policy.setConfCmds cmds).setUseOldTLS l.useOldTLS
      Except.ok (serverPtr.enableSSL policy)
  else
    Except.ok serverPtr

/-- One iteration of the inner loop of the `__linux__` branch
(ListenerManager.cc lines 92-158) at worker-loop index `i`, listener index
`j`: parse the address (fatal when unspecified), when `i == 0` and reuse-port
is disabled run the bind probe under the scoped file lock (fatal when the
address is in use), then build the real server.  The event list records what
happened in order. -/
def stepLinux (env : Env) (m : ListenerManager) (gc gk : String)
    (g : List (String × String)) (i j : Nat) (loopId : Nat)
    (l : ListenerInfo) : List Event × Except Fatal HttpServer :=
  let listenAddress := listenAddressOf l
  if env.isUnspecified listenAddress then
    ([], Except.error (Fatal.parseFailure l.ip))
  else if i == 0 && !env.reusePort then
    if env.bindOk listenAddress then
      ([Event.lockAcquire i j, Event.bindProbe i j listenAddress,
        Event.lockRelease i j, Event.construct i j],
       buildServerLinux env m gc gk g loopId l listenAddress)
    else
      ([Event.lockAcquire i j, Event.bindProbe i j listenAddress],
       Except.error (Fatal.addressInUse listenAddress))
  else
    ([Event.construct i j],
     buildServerLinux env m gc gk g loopId l listenAddress)

/-- The inner for-loop over listeners_ of the `__linux__` branch at
worker-loop index `i`, starting at listener index `j`.  A fatal stops the
iteration (the process dies); otherwise the realized servers are collected
in declaration order. -/
def runSpecsLinux (env : Env) (m : ListenerManager) (gc gk : String)
    (g : List (String × String)) (i : Nat) (loopId : Nat) :
    Nat → List ListenerInfo → List Event × Except Fatal (List HttpServer)
  | _, [] => ([], Except.ok [])
  | j, l :: ls =>
    match stepLinux env m gc gk g i j loopId l with
    | (tr, Except.error e) => (tr, Except.error e)
    | (tr, Except.ok s) =>
      match runSpecsLinux env m gc gk g i loopId (j + 1) ls with
      | (tr2, Except.error e) => (tr ++ tr2, Except.error e)
      | (tr2, Except.ok ss) => (tr ++ tr2, Except.ok (s :: ss))

/-- The outer for-loop of the `__linux__` branch over the worker loops,
starting at loop index `i`. -/
def runLoopsLinux (env : Env) (m : ListenerManager) (gc gk : String)
    (g : List (String × String)) :
    Nat → List Nat → List Event × Except Fatal (List HttpServer)
  | _, [] => ([], Except.ok [])
  | i, loopId :: rest =>
    match runSpecsLinux env m gc gk g i loopId 0 m.listeners with
    | (tr, Except.error e) => (tr, Except.error e)
    | (tr, Except.ok ss) =>
      match runLoopsLinux env m gc gk g (i + 1) rest with
      | (tr2, Except.error e) => (tr ++ tr2, Except.error e)
      | (tr2, Except.ok ss2) => (tr ++ tr2, Except.ok (ss ++ ss2))

/-- ListenerManager::createListeners, `__linux__` branch (ListenerManager.cc
lines 89-159): one server per (worker loop, declared spec) pair, pushed onto
servers_. -/
def createListenersLinux (env : Env) (m : ListenerManager) (gc gk : String)
    (g : List (String × String)) (ioLoops : List Nat) :
    List Event × Except Fatal ListenerManager :=
  match runLoopsLinux env m gc gk g 0 ioLoops with
  | (tr, Except.error e) => (tr, Except.error e)
  | (tr, Except.ok ss) => (tr, Except.ok { m with servers := m.servers ++ ss })

/-- The per-listener server construction of the non-`__linux__` branch of
ListenerManager::createListeners (ListenerManager.cc lines 171-212): the
server is created on the dedicated listening thread's loop with no
address-parse check and with no callback installation; under SSL the conf
commands are the global ones only (the listener-specific ones are not
appended in this branch); the full worker-loop set is injected with
setIoLoops. -/
def buildServerNonLinux (env : Env) (gc gk : String)
    (g : List (String × String)) (threadLoop : Nat) (ioLoops : List Nat)
    (l : ListenerInfo) : Except Fatal HttpServer :=
  let serverPtr := HttpServer.make threadLoop (listenAddressOf l) "drogon"
  if l.useSSL && env.supportsTls then
    let cert := l.certFile
    let key := l.keyFile
    let cert := if cert == "" then gc else cert
    let key := if key == "" then gk else key
    if cert == "" || key == "" then
      Except.error Fatal.missingSslMaterial
    else
      let cmds := g
      let policy := TLSPolicy.defaultServerPolicy cert key
      let policy := (policy.setConfCmds cmds).setUseOldTLS l.useOldTLS
      Except.ok ((serverPtr.enableSSL policy).setIoLoops ioLoops)
  else
    Except.ok (serverPtr.setIoLoops ioLoops)

/-- The for-loop over listeners_ of the non-`__linux__` branch. -/
def runSpecsNonLinux (env : Env) (gc gk : String) (g : List (String × String))
    (threadLoop : Nat) (ioLoops : List Nat) :
    List ListenerInfo → Except Fatal (List HttpServer)
  | [] => Except.ok []
  | l :: ls =>
    match buildServerNonLinux env gc gk g threadLoop ioLoops l with
    | Except.error e => Except.error e
    | Except.ok s =>
      match runSpecsNonLinux env gc gk g threadLoop ioLoops ls with
      | Except.error e => Except.error e
      | Except.ok ss => Except.ok (s :: ss)

/-- ListenerManager::createListeners, non-`__linux__` branch
(ListenerManager.cc lines 160-214): when at least one spec is declared,
start the dedicated listening thread (its fresh loop id is the `threadLoop`
parameter) and create one server per spec on that loop; with no specs
nothing happens. -/
def createListenersNonLinux (env : Env) (m : ListenerManager) (gc gk : String)
    (g : List (String × String)) (ioLoops : List Nat) (threadLoop : Nat) :
    List Event × Except Fatal ListenerManager :=
  if m.listeners.isEmpty then
    ([], Except.ok m)
  else
    match runSpecsNonLinux env gc gk g threadLoop ioLoops m.listeners with
    | Except.error e => ([], Except.error e)
    | Except.ok ss =>
      ([], Except.ok { m with servers := m.servers ++ ss,
                              listeningThread := some threadLoop })

/-- ListenerManager::createListeners with the `#ifdef __linux__` platform
dispatch made explicit: `capable = true` selects the per-worker-loop
reuseport strategy, `capable = false` the dedicated-thread strategy. -/
def createListeners (capable : Bool) (env : Env) (m : ListenerManager)
    (gc gk : String) (g : List (String × String)) (ioLoops : List Nat)
    (threadLoop : Nat) : List Event × Except Fatal ListenerManager :=
  if capable then createListenersLinux env m gc gk g ioLoops
  else createListenersNonLinux env m gc gk g ioLoops threadLoop

/-- ListenerManager::stopListening (ListenerManager.cc lines 225-238) as the
sequence of actions it performs: stop every realized server in order, then,
when the dedicated listening thread exists, quit its loop and wait for the
thread to exit. -/
def ListenerManager.stopListening (m : ListenerManager) : List StopEvent :=
  (List.range m.servers.length).map StopEvent.stopServer ++
    (match m.listeningThread with
     | some _ => [StopEvent.loopQuit, StopEvent.threadWait]
     | none => [])

/-! ## Derived closed forms used in the statements -/

/-- The effective certificate path the SSL resolver computes: the spec's
certFile when non-empty, the global one otherwise. -/
def effectiveCert (l : ListenerInfo) (globalCertFile : String) : String :=
  if l.certFile == "" then globalCertFile else l.certFile

/-- The effective key path: the spec's keyFile when non-empty, the global
one otherwise. -/
def effectiveKey (l : ListenerInfo) (globalKeyFile : String) : String :=
  if l.keyFile == "" then globalKeyFile else l.keyFile

/-- The condition under which a spec makes createListeners exit(1): SSL is
wanted, the build has TLS, and the effective cert or key is empty. -/
def sslFatalCond (env : Env) (gc gk : String) (l : ListenerInfo) : Bool :=
  l.useSSL && env.supportsTls && (effectiveCert l gc == "" || effectiveKey l gk == "")

/-- The HttpServer the Linux branch produces for a spec before SSL
processing: bound to the given loop, carrying exactly the manager's three
callback slots. -/
def linuxBaseServer (m : ListenerManager) (loopId : Nat) (addr : InetAddress) : HttpServer :=
  ⟨loopId, addr, "drogon", m.beforeListenSetSockOptCallback,
   m.afterAcceptSetSockOptCallback, m.connectionCallback, none, []⟩

/-- The TLS policy the Linux branch realizes: effective cert and key, global
conf commands followed by the listener-specific ones, and the spec's
legacy-TLS flag. -/
def linuxSslPolicy (gc gk : String) (g : List (String × String)) (l : ListenerInfo) : TLSPolicy :=
  ⟨effectiveCert l gc, effectiveKey l gk, g ++ l.sslConfCmds, l.useOldTLS⟩

/-- The server the Linux branch realizes for a given spec at a given address. -/
def linuxRealizedAt (env : Env) (m : ListenerManager) (gc gk : String)
    (g : List (String × String)) (loopId : Nat) (l : ListenerInfo)
    (addr : InetAddress) : HttpServer :=
  if l.useSSL && env.supportsTls then
    { linuxBaseServer m loopId addr with sslPolicy := some (linuxSslPolicy gc gk g l) }
  else
    linuxBaseServer m loopId addr

/-- The server the Linux branch realizes for a spec (address included). -/
def linuxRealized (env : Env) (m : ListenerManager) (gc gk : String)
    (g : List (String × String)) (loopId : Nat) (l : ListenerInfo) : HttpServer :=
  linuxRealizedAt env m gc gk g loopId l (listenAddressOf l)

/-- The servers the Linux branch realizes for one worker loop: one per
declared spec, in declaration order. -/
def linuxBlock (env : Env) (m : ListenerManager) (gc gk : String)
    (g : List (String × String)) (loopId : Nat) : List HttpServer :=
  m.listeners.map (linuxRealized env m gc gk g loopId)

/-- All servers the Linux branch realizes, worker loop by worker loop. -/
def linuxServers (env : Env) (m : ListenerManager) (gc gk : String)
    (g : List (String × String)) : List Nat → List HttpServer
  | [] => []
  | loopId :: rest =>
    linuxBlock env m gc gk g loopId ++ linuxServers env m gc gk g rest

/-- The TLS policy the non-Linux branch realizes: effective cert and key,
the global conf commands only, and the spec's legacy-TLS flag. -/
def nonLinuxSslPolicy (gc gk : String) (g : List (String × String)) (l : ListenerInfo) : TLSPolicy :=
  ⟨effectiveCert l gc, effectiveKey l gk, g, l.useOldTLS⟩

/-- The server the non-Linux branch realizes for a spec: on the dedicated
thread's loop, no callbacks, the worker-loop set injected. -/
def nonLinuxRealized (env : Env) (gc gk : String) (g : List (String × String))
    (threadLoop : Nat) (ioLoops : List Nat) (l : ListenerInfo) : HttpServer :=
  if l.useSSL && env.supportsTls then
    ⟨threadLoop, listenAddressOf l, "drogon", none, none, none,
     some (nonLinuxSslPolicy gc gk g l), ioLoops⟩
  else
    ⟨threadLoop, listenAddressOf l, "drogon", none, none, none, none, ioLoops⟩

/-- The events one Linux-branch iteration at pair (i, j) emits when it does
not die: the scoped lock/probe/unlock triple exactly when i = 0 and
reuse-port is off, then the construction of the real server. -/
def stepTrace (env : Env) (i j : Nat) (l : ListenerInfo) : List Event :=
  (if i == 0 && !env.reusePort then
     [Event.lockAcquire i j, Event.bindProbe i j (listenAddressOf l),
      Event.lockRelease i j]
   else []) ++ [Event.construct i j]

/-- The events of the whole inner loop at worker-loop index i, starting at
listener index j. -/
def specsTrace (env : Env) (i : Nat) : Nat → List ListenerInfo → List Event
  | _, [] => []
  | j, l :: ls => stepTrace env i j l ++ specsTrace env i (j + 1) ls

/-- The events of the whole Linux-branch run, starting at loop index i. -/
def loopsTrace (env : Env) (ls : List ListenerInfo) : Nat → List Nat → List Event
  | _, [] => []
  | i, _ :: rest => specsTrace env i 0 ls ++ loopsTrace env ls (i + 1) rest

/-! ## Characterization lemmas -/

theorem buildServerLinux_eq (env : Env) (m : ListenerManager) (gc gk : String)
    (g : List (String × String)) (loopId : Nat) (l : ListenerInfo) (addr : InetAddress) :
    buildServerLinux env m gc gk g loopId l addr =
      if sslFatalCond env gc gk l then Except.error Fatal.missingSslMaterial
      else Except.ok (linuxRealizedAt env m gc gk g loopId l addr) := by
  unfold buildServerLinux sslFatalCond linuxRealizedAt linuxBaseServer linuxSslPolicy
    effectiveCert effectiveKey
  cases hb : m.beforeListenSetSockOptCallback <;>
    cases ha : m.afterAcceptSetSockOptCallback <;>
      cases hc : m.connectionCallback <;>
        cases hs : (l.useSSL && env.supportsTls) <;>
          simp [HttpServer.make, HttpServer.setBeforeListenSockOptCallback,
            HttpServer.setAfterAcceptSockOptCallback, HttpServer.setConnectionCallback,
            HttpServer.enableSSL, TLSPolicy.defaultServerPolicy, TLSPolicy.setConfCmds,
            TLSPolicy.setUseOldTLS, hb, ha, hc] <;>
            cases hm : ((if l.certFile == "" then gc else l.certFile) == ""
                || (if l.keyFile == "" then gk else l.keyFile) == "") <;>
              simp [hm]

theorem buildServerNonLinux_eq (env : Env) (gc gk : String)
    (g : List (String × String)) (threadLoop : Nat) (ioLoops : List Nat)
    (l : ListenerInfo) :
    buildServerNonLinux env gc gk g threadLoop ioLoops l =
      if sslFatalCond env gc gk l then Except.error Fatal.missingSslMaterial
      else Except.ok (nonLinuxRealized env gc gk g threadLoop ioLoops l) := by
  unfold buildServerNonLinux sslFatalCond nonLinuxRealized nonLinuxSslPolicy
    effectiveCert effectiveKey listenAddressOf
  cases hs : (l.useSSL && env.supportsTls) <;>
    simp [HttpServer.make, HttpServer.setIoLoops, HttpServer.enableSSL,
      TLSPolicy.defaultServerPolicy, TLSPolicy.setConfCmds, TLSPolicy.setUseOldTLS] <;>
      cases hm : ((if l.certFile == "" then gc else l.certFile) == ""
          || (if l.keyFile == "" then gk else l.keyFile) == "") <;>
        simp [hm]

theorem stepLinux_ok {env : Env} {m : ListenerManager} {gc gk : String}
    {g : List (String × String)} {i j loopId : Nat} {l : ListenerInfo}
    {tr : List Event} {s : HttpServer}
    (h : stepLinux env m gc gk g i j loopId l = (tr, Except.ok s)) :
    s = linuxRealized env m gc gk g loopId l ∧
    tr = stepTrace env i j l ∧
    env.isUnspecified (listenAddressOf l) = false ∧
    sslFatalCond env gc gk l = false ∧
    ((i == 0 && !env.reusePort) = true → env.bindOk (listenAddressOf l) = true) := by
  cases hu : env.isUnspecified (listenAddressOf l) <;>
    cases hp : (i == 0 && !env.reusePort) <;>
      cases hf : sslFatalCond env gc gk l <;>
        cases hbk : env.bindOk (listenAddressOf l) <;>
          simp_all [stepLinux, buildServerLinux_eq, stepTrace, linuxRealized]

theorem runSpecsLinux_ok {env : Env} {m : ListenerManager} {gc gk : String}
    {g : List (String × String)} {i loopId : Nat} :
    ∀ {ls : List ListenerInfo} {j : Nat} {tr : List Event} {ss : List HttpServer},
      runSpecsLinux env m gc gk g i loopId j ls = (tr, Except.ok ss) →
        ss = ls.map (linuxRealized env m gc gk g loopId) ∧
        tr = specsTrace env i j ls ∧
        ∀ l ∈ ls, env.isUnspecified (listenAddressOf l) = false ∧
          sslFatalCond env gc gk l = false ∧
          ((i == 0 && !env.reusePort) = true → env.bindOk (listenAddressOf l) = true) := by
  intro ls
  induction ls with
  | nil =>
    intro j tr ss h
    simp only [runSpecsLinux] at h
    obtain ⟨h1, h2⟩ := Prod.mk.injEq .. ▸ h
    simp_all [specsTrace]
  | cons l ls ih =>
    intro j tr ss h
    simp only [runSpecsLinux] at h
    rcases hstep : stepLinux env m gc gk g i j loopId l with ⟨tr1, r1⟩
    rw [hstep] at h
    cases r1 with
    | error e => simp at h
    | ok s =>
      rcases hrec : runSpecsLinux env m gc gk g i loopId (j + 1) ls with ⟨tr2, r2⟩
      rw [hrec] at h
      cases r2 with
      | error e => simp at h
      | ok ss2 =>
        simp only [Prod.mk.injEq, Except.ok.injEq] at h
        obtain ⟨htr, hss⟩ := h
        obtain ⟨hs1, ht1, hu1, hf1, hb1⟩ := stepLinux_ok hstep
        obtain ⟨hs2, ht2, hrest⟩ := ih hrec
        subst htr hss hs1 ht1 hs2 ht2
        refine ⟨rfl, by simp [specsTrace], ?_⟩
        intro x hx
        rcases List.mem_cons.mp hx with hx | hx
        · subst hx; exact ⟨hu1, hf1, hb1⟩
        · exact hrest x hx

theorem runLoopsLinux_ok {env : Env} {m : ListenerManager} {gc gk : String}
    {g : List (String × String)} :
    ∀ {loops : List Nat} {i : Nat} {tr : List Event} {ss : List HttpServer},
      runLoopsLinux env m gc gk g i loops = (tr, Except.ok ss) →
        ss = linuxServers env m gc gk g loops ∧
        tr = loopsTrace env m.listeners i loops ∧
        (loops ≠ [] → ∀ l ∈ m.listeners,
          env.isUnspecified (listenAddressOf l) = false ∧
          sslFatalCond env gc gk l = false) := by
  intro loops
  induction loops with
  | nil =>
    intro i tr ss h
    simp only [runLoopsLinux] at h
    obtain ⟨h1, h2⟩ := Prod.mk.injEq .. ▸ h
    simp_all [linuxServers, loopsTrace]
  | cons loopId rest ih =>
    intro i tr ss h
    simp only [runLoopsLinux] at h
    rcases hspec : runSpecsLinux env m gc gk g i loopId 0 m.listeners with ⟨tr1, r1⟩
    rw [hspec] at h
    cases r1 with
    | error e => simp at h
    | ok ss1 =>
      rcases hrec : runLoopsLinux env m gc gk g (i + 1) rest with ⟨tr2, r2⟩
      rw [hrec] at h
      cases r2 with
      | error e => simp at h
      | ok ss2 =>
        simp only [Prod.mk.injEq, Except.ok.injEq] at h
        obtain ⟨htr, hss⟩ := h
        obtain ⟨hs1, ht1, hconds⟩ := runSpecsLinux_ok hspec
        obtain ⟨hs2, ht2, _⟩ := ih hrec
        subst htr hss hs1 ht1 hs2 ht2
        refine ⟨by simp [linuxServers, linuxBlock], by simp [loopsTrace], ?_⟩
        intro _ l hl
        exact ⟨(hconds l hl).1, (hconds l hl).2.1⟩

theorem createListenersLinux_ok {env : Env} {m : ListenerManager} {gc gk : String}
    {g : List (String × String)} {ioLoops : List Nat} {tr : List Event}
    {m' : ListenerManager}
    (h : createListenersLinux env m gc gk g ioLoops = (tr, Except.ok m')) :
    m'.listeners = m.listeners ∧
    m'.listeningThread = m.listeningThread ∧
    m'.servers = m.servers ++ linuxServers env m gc gk g ioLoops ∧
    tr = loopsTrace env m.listeners 0 ioLoops ∧
    (ioLoops ≠ [] → ∀ l ∈ m.listeners,
      env.isUnspecified (listenAddressOf l) = false ∧
      sslFatalCond env gc gk l = false) := by
  simp only [createListenersLinux] at h
  rcases hrun : runLoopsLinux env m gc gk g 0 ioLoops with ⟨tr1, r1⟩
  rw [hrun] at h
  cases r1 with
  | error e => simp at h
  | ok ss =>
    simp only [Prod.mk.injEq, Except.ok.injEq] at h
    obtain ⟨htr, hm'⟩ := h
    obtain ⟨hs, ht, hconds⟩ := runLoopsLinux_ok hrun
    subst htr hm' hs ht
    exact ⟨rfl, rfl, rfl, rfl, hconds⟩

theorem getD_append_left {α : Type} (xs ys : List α) (n : Nat) (d : α)
    (h : n < xs.length) : (xs ++ ys).getD n d = xs.getD n d := by
  simp [List.getD_eq_getElem?_getD, List.getElem?_append, h]

theorem getD_append_right_len {α : Type} (xs ys : List α) (n : Nat) (d : α) :
    (xs ++ ys).getD (xs.length + n) d = ys.getD n d := by
  simp [List.getD_eq_getElem?_getD, List.getElem?_append_right, Nat.add_sub_cancel_left]

theorem linuxServers_length (env : Env) (m : ListenerManager) (gc gk : String)
    (g : List (String × String)) (loops : List Nat) :
    (linuxServers env m gc gk g loops).length = loops.length * m.listeners.length := by
  induction loops with
  | nil => simp [linuxServers]
  | cons a rest ih =>
    simp [linuxServers, linuxBlock, ih, Nat.succ_mul, Nat.add_comm]

theorem linuxServers_getD (env : Env) (m : ListenerManager) (gc gk : String)
    (g : List (String × String)) (d : HttpServer) (dl : ListenerInfo) :
    ∀ (loops : List Nat) (i j : Nat), i < loops.length → j < m.listeners.length →
      (linuxServers env m gc gk g loops).getD (i * m.listeners.length + j) d =
        linuxRealized env m gc gk g (loops.getD i 0) (m.listeners.getD j dl) := by
  intro loops
  induction loops with
  | nil => intro i j hi _; exact absurd hi (by simp)
  | cons a rest ih =>
    intro i j hi hj
    cases i with
    | zero =>
      have hjb : j < (linuxBlock env m gc gk g a).length := by
        simpa [linuxBlock] using hj
      simp only [linuxServers, Nat.zero_mul, Nat.zero_add]
      rw [getD_append_left _ _ _ _ hjb]
      simp only [linuxBlock, List.getD_eq_getElem?_getD, List.getElem?_map]
      rw [List.getElem?_eq_getElem hj]
      simp [List.getD_eq_getElem?_getD, List.getElem?_eq_getElem hj]
    | succ i' =>
      have hidx : (i' + 1) * m.listeners.length + j =
          (linuxBlock env m gc gk g a).length + (i' * m.listeners.length + j) := by
        simp [linuxBlock, Nat.succ_mul]
        ring
      simp only [linuxServers, hidx]
      rw [getD_append_right_len]
      have hi' : i' < rest.length := by simpa using hi
      simpa using ih i' j hi' hj

theorem mem_linuxServers {env : Env} {m : ListenerManager} {gc gk : String}
    {g : List (String × String)} :
    ∀ {loops : List Nat} {s : HttpServer}, s ∈ linuxServers env m gc gk g loops →
      ∃ loopId l, l ∈ m.listeners ∧ s = linuxRealized env m gc gk g loopId l := by
  intro loops
  induction loops with
  | nil => intro s hs; simp [linuxServers] at hs
  | cons a rest ih =>
    intro s hs
    rcases List.mem_append.mp (by simpa [linuxServers] using hs) with hs | hs
    · rcases List.mem_map.mp (by simpa [linuxBlock] using hs) with ⟨l, hl, hval⟩
      exact ⟨a, l, hl, hval.symm⟩
    · exact ih hs

theorem linuxRealizedAt_base (env : Env) (m : ListenerManager) (gc gk : String)
    (g : List (String × String)) (loopId : Nat) (l : ListenerInfo) (addr : InetAddress) :
    (linuxRealizedAt env m gc gk g loopId l addr).loop = loopId ∧
    (linuxRealizedAt env m gc gk g loopId l addr).addr = addr ∧
    (linuxRealizedAt env m gc gk g loopId l addr).beforeListenSockOptCallback =
      m.beforeListenSetSockOptCallback ∧
    (linuxRealizedAt env m gc gk g loopId l addr).afterAcceptSockOptCallback =
      m.afterAcceptSetSockOptCallback ∧
    (linuxRealizedAt env m gc gk g loopId l addr).connectionCallback =
      m.connectionCallback := by
  unfold linuxRealizedAt linuxBaseServer
  cases hs : (l.useSSL && env.supportsTls) <;> simp

theorem linuxRealizedAt_ssl_on (env : Env) (m : ListenerManager) (gc gk : String)
    (g : List (String × String)) (loopId : Nat) (l : ListenerInfo) (addr : InetAddress)
    (hs : (l.useSSL && env.supportsTls) = true) :
    (linuxRealizedAt env m gc gk g loopId l addr).sslPolicy =
      some (linuxSslPolicy gc gk g l) := by
  simp [linuxRealizedAt, hs]

theorem linuxRealizedAt_ssl_off (env : Env) (m : ListenerManager) (gc gk : String)
    (g : List (String × String)) (loopId : Nat) (l : ListenerInfo) (addr : InetAddress)
    (hs : (l.useSSL && env.supportsTls) = false) :
    (linuxRealizedAt env m gc gk g loopId l addr).sslPolicy = none := by
  simp [linuxRealizedAt, hs, linuxBaseServer]

theorem nonLinuxRealized_base (env : Env) (gc gk : String)
    (g : List (String × String)) (threadLoop : Nat) (ioLoops : List Nat)
    (l : ListenerInfo) :
    (nonLinuxRealized env gc gk g threadLoop ioLoops l).loop = threadLoop ∧
    (nonLinuxRealized env gc gk g threadLoop ioLoops l).addr = listenAddressOf l ∧
    (nonLinuxRealized env gc gk g threadLoop ioLoops l).ioLoops = ioLoops ∧
    (nonLinuxRealized env gc gk g threadLoop ioLoops l).beforeListenSockOptCallback = none ∧
    (nonLinuxRealized env gc gk g threadLoop ioLoops l).afterAcceptSockOptCallback = none ∧
    (nonLinuxRealized env gc gk g threadLoop ioLoops l).connectionCallback = none := by
  unfold nonLinuxRealized
  cases hs : (l.useSSL && env.supportsTls) <;> simp

theorem runSpecsNonLinux_ok {env : Env} {gc gk : String}
    {g : List (String × String)} {threadLoop : Nat} {ioLoops : List Nat} :
    ∀ {ls : List ListenerInfo} {ss : List HttpServer},
      runSpecsNonLinux env gc gk g threadLoop ioLoops ls = Except.ok ss →
        ss = ls.map (nonLinuxRealized env gc gk g threadLoop ioLoops) ∧
        ∀ l ∈ ls, sslFatalCond env gc gk l = false := by
  intro ls
  induction ls with
  | nil => intro ss h; simp only [runSpecsNonLinux, Except.ok.injEq] at h; simp [← h]
  | cons l ls ih =>
    intro ss h
    simp only [runSpecsNonLinux, buildServerNonLinux_eq] at h
    cases hf : sslFatalCond env gc gk l with
    | true => rw [hf] at h; simp at h
    | false =>
      rw [hf] at h
      simp only [Bool.false_eq_true, if_false] at h
      rcases hrec : runSpecsNonLinux env gc gk g threadLoop ioLoops ls with e | ss2
      · rw [hrec] at h; simp at h
      · rw [hrec] at h
        simp only [Except.ok.injEq] at h
        obtain ⟨hmap, hrest⟩ := ih hrec
        subst hmap
        refine ⟨by simp [← h], ?_⟩
        intro x hx
        rcases List.mem_cons.mp hx with hx | hx
        · subst hx; exact hf
        · exact hrest x hx

theorem createListenersNonLinux_ok {env : Env} {m : ListenerManager} {gc gk : String}
    {g : List (String × String)} {ioLoops : List Nat} {threadLoop : Nat}
    {tr : List Event} {m' : ListenerManager}
    (h : createListenersNonLinux env m gc gk g ioLoops threadLoop = (tr, Except.ok m')) :
    tr = [] ∧
    (m.listeners = [] → m' = m) ∧
    (m.listeners ≠ [] →
      m'.listeners = m.listeners ∧
      m'.listeningThread = some threadLoop ∧
      m'.servers = m.servers ++
        m.listeners.map (nonLinuxRealized env gc gk g threadLoop ioLoops) ∧
      ∀ l ∈ m.listeners, sslFatalCond env gc gk l = false) := by
  simp only [createListenersNonLinux] at h
  cases he : m.listeners.isEmpty with
  | true =>
    rw [he] at h
    simp only [if_pos rfl] at h
    have hnil : m.listeners = [] := List.isEmpty_iff.mp he
    obtain ⟨h1, h2⟩ := Prod.mk.injEq .. ▸ h
    simp only [Except.ok.injEq] at h2
    exact ⟨h1.symm, fun _ => h2.symm, fun hne => absurd hnil hne⟩
  | false =>
    rw [he] at h
    simp only [Bool.false_eq_true, if_false] at h
    have hne : m.listeners ≠ [] := by
      intro hnil; rw [hnil] at he; simp at he
    rcases hrun : runSpecsNonLinux env gc gk g threadLoop ioLoops m.listeners with e | ss
    · rw [hrun] at h; simp at h
    · rw [hrun] at h
      obtain ⟨h1, h2⟩ := Prod.mk.injEq .. ▸ h
      simp only [Except.ok.injEq] at h2
      obtain ⟨hmap, hconds⟩ := runSpecsNonLinux_ok hrun
      subst hmap
      refine ⟨h1.symm, fun hnil => absurd hnil hne, fun _ => ?_⟩
      rw [← h2]
      exact ⟨rfl, rfl, rfl, hconds⟩

theorem bindProbe_mem_stepTrace {env : Env} {i j i' j' : Nat} {a : InetAddress}
    {l : ListenerInfo} (h : Event.bindProbe i j a ∈ stepTrace env i' j' l) :
    i = i' ∧ (i' == 0 && !env.reusePort) = true := by
  unfold stepTrace at h
  cases hc : (i' == 0 && !env.reusePort) with
  | true =>
    rw [hc] at h
    simp at h
    exact ⟨h.1, rfl⟩
  | false =>
    rw [hc] at h
    simp at h

theorem bindProbe_mem_specsTrace {env : Env} {i j i' : Nat} {a : InetAddress} :
    ∀ {ls : List ListenerInfo} {j0 : Nat},
      Event.bindProbe i j a ∈ specsTrace env i' j0 ls →
        i = i' ∧ (i' == 0 && !env.reusePort) = true := by
  intro ls
  induction ls with
  | nil => intro j0 h; simp [specsTrace] at h
  | cons l ls ih =>
    intro j0 h
    rcases List.mem_append.mp (by simpa [specsTrace] using h) with h | h
    · exact bindProbe_mem_stepTrace h
    · exact ih h

theorem bindProbe_mem_loopsTrace {env : Env} {ls : List ListenerInfo}
    {i j : Nat} {a : InetAddress} :
    ∀ {loops : List Nat} {i0 : Nat},
      Event.bindProbe i j a ∈ loopsTrace env ls i0 loops →
        i = 0 ∧ env.reusePort = false := by
  intro loops
  induction loops with
  | nil => intro i0 h; simp [loopsTrace] at h
  | cons a0 rest ih =>
    intro i0 h
    rcases List.mem_append.mp (by simpa [loopsTrace] using h) with h | h
    · obtain ⟨hi, hc⟩ := bindProbe_mem_specsTrace h
      have h0 : (i0 == 0) = true ∧ (!env.reusePort) = true := by
        simpa using hc
      have : i0 = 0 := by simpa using h0.1
      subst this
      exact ⟨hi, by simpa using h0.2⟩
    · exact ih h

theorem stepTrace_sublist_specsTrace {env : Env} {i : Nat} (dl : ListenerInfo) :
    ∀ (ls : List ListenerInfo) (j0 j : Nat), j < ls.length →
      List.Sublist (stepTrace env i (j0 + j) (ls.getD j dl)) (specsTrace env i j0 ls) := by
  intro ls
  induction ls with
  | nil => intro j0 j hj; exact absurd hj (by simp)
  | cons l ls ih =>
    intro j0 j hj
    cases j with
    | zero =>
      simpa [specsTrace] using
        List.sublist_append_left (stepTrace env i j0 l) (specsTrace env i (j0 + 1) ls)
    | succ j' =>
      have hj' : j' < ls.length := by simpa using hj
      have hsub := ih (j0 + 1) j' hj'
      have harr : j0 + 1 + j' = j0 + (j' + 1) := by omega
      rw [harr] at hsub
      have hstep : List.Sublist (specsTrace env i (j0 + 1) ls) (specsTrace env i j0 (l :: ls)) := by
        simpa [specsTrace] using
          List.sublist_append_right (stepTrace env i j0 l) (specsTrace env i (j0 + 1) ls)
      simpa using hsub.trans hstep

instance {ε α : Type} [DecidableEq ε] [DecidableEq α] : DecidableEq (Except ε α) := fun a b =>
  match a, b with
  | Except.error e1, Except.error e2 => decidable_of_iff (e1 = e2) (by simp)
  | Except.error _, Except.ok _ => isFalse (fun hh => Except.noConfusion hh)
  | Except.ok _, Except.error _ => isFalse (fun hh => Except.noConfusion hh)
  | Except.ok a1, Except.ok a2 => decidable_of_iff (a1 = a2) (by simp)

/-- Projects the manager out of a createListeners outcome; a fatal run (the
process died) yields the fresh manager, which has no realized servers. -/
def okManager (r : List Event × Except Fatal ListenerManager) : ListenerManager :=
  match r.2 with
  | Except.ok m' => m'
  | Except.error _ => ListenerManager.fresh

/-! ## Concrete fixtures used by witnesses and counterexamples -/

/-- Reuse-port enabled, TLS available, all addresses parse, all binds work. -/
def envReuse : Env := ⟨true, true, fun _ => false, fun _ => true⟩

/-- Reuse-port disabled (so loop 0 probes), TLS available, all addresses
parse, all binds work. -/
def envProbe : Env := ⟨false, true, fun _ => false, fun _ => true⟩

/-- TLS available but no address literal parses. -/
def envBadParse : Env := ⟨true, true, fun _ => true, fun _ => true⟩

/-- A plain HTTP spec. -/
def specPlain : ListenerInfo := ⟨"a", 80, false, "", "", false, []⟩

/-- An SSL spec with its own cert, key and conf commands. -/
def specSsl : ListenerInfo := ⟨"b", 443, true, "c", "k", false, [("s", "t")]⟩

/-- An SSL spec with no cert/key material of its own. -/
def specSslBad : ListenerInfo := ⟨"d", 443, true, "", "", false, []⟩

/-- Two declared specs and all three callbacks set. -/
def mgrPlain2 : ListenerManager := ⟨[specPlain, specSsl], [], none, some 1, some 2, some 3⟩

/-- One plain spec with all three callbacks set. -/
def mgrPlain1 : ListenerManager := ⟨[specPlain], [], none, some 1, some 2, some 3⟩

/-- One SSL spec with its own material. -/
def mgrSsl1 : ListenerManager := ⟨[specSsl], [], none, none, none, none⟩

/-- One SSL spec without material. -/
def mgrSslBad : ListenerManager := ⟨[specSslBad], [], none, none, none, none⟩

/-- Two realized servers and a dedicated listening thread. -/
def mgrStop : ListenerManager :=
  ⟨[], [HttpServer.make 1 ⟨"a", 80, false⟩ "drogon",
        HttpServer.make 2 ⟨"b", 81, false⟩ "drogon"], some 5, none, none, none⟩

/-! ## Claims -/

theorem stops_getElem {n i : Nat} {x : StopEvent}
    (h : ((List.range n).map StopEvent.stopServer)[i]? = some x) :
    i < n ∧ x = StopEvent.stopServer i := by
  rcases Nat.lt_or_ge i n with hi | hi
  · refine ⟨hi, ?_⟩
    rw [List.getElem?_map, List.getElem?_range hi] at h
    simpa using h.symm
  · exfalso
    have : ((List.range n).map StopEvent.stopServer)[i]? = none := by
      apply List.getElem?_eq_none
      simpa using hi
    rw [this] at h
    exact Option.noConfusion h

/-- C10: on a reuseport-capable platform, createListeners with an empty
worker-loop sequence realizes zero instances, emits no event (so no bind
probe), raises no fatal error no matter what specs are declared (even
malformed ones), and getListeners on the resulting fresh manager is empty. -/
theorem claim_C10 (env : Env) (m : ListenerManager) (gc gk : String)
    (g : List (String × String)) :
    createListenersLinux env m gc gk g [] = ([], Except.ok m) ∧
    (m.servers = [] → m.getListeners = []) := by
  constructor
  · simp [createListenersLinux, runLoopsLinux]
  · intro h
    simp [ListenerManager.getListeners, h]

/-- C10 witness: a concrete run with declared malformed specs and no worker
loops succeeds, realizes nothing and probes nothing. -/
theorem claim_C10_witness :
    createListenersLinux envBadParse mgrSslBad "" "" [] [] = ([], Except.ok mgrSslBad) ∧
    mgrSslBad.getListeners = [] :=
  ⟨(claim_C10 envBadParse mgrSslBad "" "" []).1,
   (claim_C10 envBadParse mgrSslBad "" "" []).2 rfl⟩

/-- C9: stopListening stops every realized server instance, every stop comes
before the dedicated loop's quit, the thread wait comes after the quit and,
when no dedicated thread exists, the action sequence is exactly the per-server
stops. -/
theorem claim_C9 (m : ListenerManager) :
    (∀ k, k < m.servers.length → StopEvent.stopServer k ∈ m.stopListening) ∧
    (∀ (i1 i2 k : Nat), m.stopListening[i1]? = some (StopEvent.stopServer k) →
      m.stopListening[i2]? = some StopEvent.loopQuit → i1 < i2) ∧
    (∀ (i1 i2 : Nat), m.stopListening[i1]? = some StopEvent.loopQuit →
      m.stopListening[i2]? = some StopEvent.threadWait → i1 < i2) ∧
    (m.listeningThread.isSome = true →
      StopEvent.loopQuit ∈ m.stopListening ∧ StopEvent.threadWait ∈ m.stopListening) ∧
    (m.listeningThread = none →
      m.stopListening = (List.range m.servers.length).map StopEvent.stopServer) := by
  cases ht : m.listeningThread with
  | none =>
    have htr : m.stopListening = (List.range m.servers.length).map StopEvent.stopServer := by
      simp [ListenerManager.stopListening, ht]
    refine ⟨?_, ?_, ?_, ?_, fun _ => htr⟩
    · intro k hk
      rw [htr]
      exact List.mem_map.mpr ⟨k, List.mem_range.mpr hk, rfl⟩
    · intro i1 i2 k h1 h2
      rw [htr] at h2
      exact absurd (stops_getElem h2).2 (by simp)
    · intro i1 i2 h1 h2
      rw [htr] at h1
      exact absurd (stops_getElem h1).2 (by simp)
    · intro hsome
      simp at hsome
  | some t =>
    have htr : m.stopListening = (List.range m.servers.length).map StopEvent.stopServer ++
        [StopEvent.loopQuit, StopEvent.threadWait] := by
      simp [ListenerManager.stopListening, ht]
    have hlen : ((List.range m.servers.length).map StopEvent.stopServer).length =
        m.servers.length := by simp
    refine ⟨?_, ?_, ?_, fun _ => ?_, ?_⟩
    · intro k hk
      rw [htr]
      exact List.mem_append.mpr (Or.inl (List.mem_map.mpr ⟨k, List.mem_range.mpr hk, rfl⟩))
    · intro i1 i2 k h1 h2
      rw [htr, List.getElem?_append] at h1 h2
      rcases Nat.lt_or_ge i1 m.servers.length with hi1 | hi1
      · rcases Nat.lt_or_ge i2 m.servers.length with hi2 | hi2
        · rw [if_pos (show _ by simpa using hi2)] at h2
          exact absurd (stops_getElem h2).2 (by simp)
        · omega
      · rw [if_neg (by omega)] at h1
        have hb : i1 - m.servers.length < 2 := by
          by_contra hb
          rw [List.getElem?_eq_none (by simp; omega)] at h1
          exact Option.noConfusion h1
        interval_cases h : i1 - m.servers.length <;> simp_all
    · intro i1 i2 h1 h2
      rw [htr, List.getElem?_append] at h1 h2
      rcases Nat.lt_or_ge i1 m.servers.length with hi1 | hi1
      · rw [if_pos (show _ by simpa using hi1)] at h1
        exact absurd (stops_getElem h1).2 (by simp)
      · rcases Nat.lt_or_ge i2 m.servers.length with hi2 | hi2
        · rw [if_pos (show _ by simpa using hi2)] at h2
          exact absurd (stops_getElem h2).2 (by simp)
        · rw [if_neg (by omega)] at h1
          rw [if_neg (by omega)] at h2
          have hb1 : i1 - m.servers.length < 2 := by
            by_contra hb
            rw [List.getElem?_eq_none (by simp; omega)] at h1
            exact Option.noConfusion h1
          have hb2 : i2 - m.servers.length < 2 := by
            by_contra hb
            rw [List.getElem?_eq_none (by simp; omega)] at h2
            exact Option.noConfusion h2
          interval_cases hc1 : i1 - m.servers.length <;>
            interval_cases hc2 : i2 - m.servers.length <;> simp_all <;> omega
    · rw [htr]
      constructor <;> exact List.mem_append.mpr (Or.inr (by simp))
    · intro hnone
      exact Option.noConfusion hnone

/-- C9 witness: on a manager with two realized servers and a dedicated
thread, every stop action is issued and the quit and wait actions are
issued. -/
theorem claim_C9_witness :
    StopEvent.stopServer 1 ∈ mgrStop.stopListening ∧
    StopEvent.loopQuit ∈ mgrStop.stopListening ∧
    StopEvent.threadWait ∈ mgrStop.stopListening :=
  ⟨(claim_C9 mgrStop).1 1 (by decide),
   ((claim_C9 mgrStop).2.2.2.1 (by decide)).1,
   ((claim_C9 mgrStop).2.2.2.1 (by decide)).2⟩

/-- C1 (amended): on a reuseport-capable platform, whenever createListeners
completes without fatal termination for N worker loops and M declared specs,
it realizes exactly N × M server instances, the instance at slot i·M + j
being bound to worker loop i and carrying the listen address of declared
spec j — so every instance is bound to a distinct (loop, spec) pair. -/
theorem claim_C1 {env : Env} {m : ListenerManager} {gc gk : String}
    {g : List (String × String)} {ioLoops : List Nat} {tr : List Event}
    {m' : ListenerManager}
    (h : createListenersLinux env m gc gk g ioLoops = (tr, Except.ok m')) :
    m'.servers.length = m.servers.length + ioLoops.length * m.listeners.length ∧
    ∀ (i j : Nat), i < ioLoops.length → j < m.listeners.length →
      (m'.servers.getD (m.servers.length + (i * m.listeners.length + j)) default).loop =
        ioLoops.getD i 0 ∧
      (m'.servers.getD (m.servers.length + (i * m.listeners.length + j)) default).addr =
        listenAddressOf (m.listeners.getD j default) := by
  obtain ⟨-, -, hs, -, -⟩ := createListenersLinux_ok h
  constructor
  · rw [hs]
    simp [linuxServers_length]
  · intro i j hi hj
    rw [hs, getD_append_right_len]
    rw [linuxServers_getD env m gc gk g default default ioLoops i j hi hj]
    obtain ⟨h1, h2, -⟩ := linuxRealizedAt_base env m gc gk g (ioLoops.getD i 0)
      (m.listeners.getD j default) (listenAddressOf (m.listeners.getD j default))
    exact ⟨h1, h2⟩

/-- C1 counterexample: one worker loop and one declared spec whose address
parses, yet createListeners terminates fatally (the spec wants SSL and no
cert/key material exists anywhere), so no instance at all is realized —
refuting the unconditional 1 × 1 instance count. -/
theorem claim_C1_counterexample :
    envReuse.isUnspecified (listenAddressOf specSslBad) = false ∧
    mgrSslBad.listeners = [specSslBad] ∧
    createListenersLinux envReuse mgrSslBad "" "" [] [10] =
      ([Event.construct 0 0], Except.error Fatal.missingSslMaterial) := by
  refine ⟨rfl, rfl, by decide⟩

/-- A concrete successful per-loop-strategy run: two worker loops, two
declared specs. -/
def c1run : List Event × Except Fatal ListenerManager :=
  createListenersLinux envReuse mgrPlain2 "gc" "gk" [("g", "h")] [10, 11]

/-- C1 witness: the amended claim applied to a concrete successful run with
two worker loops and two specs (slot (1, 1) checked). -/
theorem claim_C1_witness :
    (okManager c1run).servers.length =
      mgrPlain2.servers.length + [10, 11].length * mgrPlain2.listeners.length ∧
    ((okManager c1run).servers.getD
        (mgrPlain2.servers.length + (1 * mgrPlain2.listeners.length + 1)) default).loop =
      [10, 11].getD 1 0 ∧
    ((okManager c1run).servers.getD
        (mgrPlain2.servers.length + (1 * mgrPlain2.listeners.length + 1)) default).addr =
      listenAddressOf (mgrPlain2.listeners.getD 1 default) := by
  have h : createListenersLinux envReuse mgrPlain2 "gc" "gk" [("g", "h")] [10, 11] =
      (c1run.1, Except.ok (okManager c1run)) := by decide
  obtain ⟨h1, h2⟩ := claim_C1 h
  exact ⟨h1, (h2 1 1 (by decide) (by decide)).1, (h2 1 1 (by decide) (by decide)).2⟩

/-- C2 (amended): on a non-capable platform, whenever createListeners
completes without fatal termination, the dedicated listening thread exists
afterwards iff at least one spec was declared (starting from a manager
without one), and with M ≥ 1 declared specs exactly M server instances are
realized, each bound to the dedicated thread's loop and each with the entire
worker-loop set injected. -/
theorem claim_C2 {env : Env} {m : ListenerManager} {gc gk : String}
    {g : List (String × String)} {ioLoops : List Nat} {threadLoop : Nat}
    {tr : List Event} {m' : ListenerManager}
    (h : createListenersNonLinux env m gc gk g ioLoops threadLoop = (tr, Except.ok m')) :
    (m.listeners = [] → m' = m) ∧
    (m.listeningThread = none → ((m'.listeningThread ≠ none) ↔ m.listeners ≠ [])) ∧
    (m.listeners ≠ [] →
      m'.listeningThread = some threadLoop ∧
      m'.servers.length = m.servers.length + m.listeners.length ∧
      ∀ (j : Nat), j < m.listeners.length →
        (m'.servers.getD (m.servers.length + j) default).loop = threadLoop ∧
        (m'.servers.getD (m.servers.length + j) default).ioLoops = ioLoops ∧
        (m'.servers.getD (m.servers.length + j) default).addr =
          listenAddressOf (m.listeners.getD j default)) := by
  obtain ⟨-, hempty, hne⟩ := createListenersNonLinux_ok h
  have hmain : m.listeners ≠ [] →
      m'.listeningThread = some threadLoop ∧
      m'.servers.length = m.servers.length + m.listeners.length ∧
      ∀ (j : Nat), j < m.listeners.length →
        (m'.servers.getD (m.servers.length + j) default).loop = threadLoop ∧
        (m'.servers.getD (m.servers.length + j) default).ioLoops = ioLoops ∧
        (m'.servers.getD (m.servers.length + j) default).addr =
          listenAddressOf (m.listeners.getD j default) := by
    intro hn
    obtain ⟨-, hthread, hservers, -⟩ := hne hn
    refine ⟨hthread, by rw [hservers]; simp, ?_⟩
    intro j hj
    rw [hservers, getD_append_right_len]
    rw [List.getD_eq_getElem?_getD, List.getElem?_map, List.getElem?_eq_getElem hj]
    have hget : m.listeners.getD j default = m.listeners[j] := by
      simp [List.getD_eq_getElem?_getD, List.getElem?_eq_getElem hj]
    rw [hget]
    obtain ⟨h1, h2, h3, -⟩ := nonLinuxRealized_base env gc gk g threadLoop ioLoops
      m.listeners[j]
    exact ⟨by simpa using h1, by simpa using h3, by simpa using h2⟩
  refine ⟨hempty, ?_, hmain⟩
  intro hnone
  constructor
  · intro hth
    intro hnil
    have := hempty hnil
    rw [this, hnone] at hth
    exact hth rfl
  · intro hn
    rw [(hmain hn).1]
    simp

/-- C2 counterexample: one declared spec on the non-capable platform, yet
createListeners terminates fatally (SSL without material) realizing no
instance — refuting the unconditional one-instance-per-spec count. -/
theorem claim_C2_counterexample :
    mgrSslBad.listeners = [specSslBad] ∧
    createListenersNonLinux envReuse mgrSslBad "" "" [] [7, 8] 9 =
      ([], Except.error Fatal.missingSslMaterial) := by
  refine ⟨rfl, by decide⟩

/-- A concrete successful dedicated-thread-strategy run: two worker loops,
two declared specs, thread loop 9. -/
def c2run : List Event × Except Fatal ListenerManager :=
  createListenersNonLinux envReuse mgrPlain2 "gc" "gk" [("g", "h")] [7, 8] 9

/-- C2 witness: the amended claim applied to a concrete successful run with
two declared specs (slot 1 checked). -/
theorem claim_C2_witness :
    ((okManager c2run).listeningThread ≠ none ↔ mgrPlain2.listeners ≠ []) ∧
    (okManager c2run).listeningThread = some 9 ∧
    (okManager c2run).servers.length = mgrPlain2.servers.length + mgrPlain2.listeners.length ∧
    ((okManager c2run).servers.getD (mgrPlain2.servers.length + 1) default).loop = 9 ∧
    ((okManager c2run).servers.getD (mgrPlain2.servers.length + 1) default).ioLoops = [7, 8] := by
  have h : createListenersNonLinux envReuse mgrPlain2 "gc" "gk" [("g", "h")] [7, 8] 9 =
      (c2run.1, Except.ok (okManager c2run)) := by decide
  obtain ⟨-, hiff, hmain⟩ := claim_C2 h
  obtain ⟨ht, hlen, hslot⟩ := hmain (by decide)
  exact ⟨hiff rfl, ht, hlen, (hslot 1 (by decide)).1, (hslot 1 (by decide)).2.1⟩

/-- C3: under either strategy, for every spec with useSSL processed while
TLS capability is present, the realized instance's effective certificate
path is the spec's certFile when non-empty and the global one otherwise,
and likewise for the key path. -/
theorem claim_C3 {env : Env} {gc gk : String} {g : List (String × String)}
    {l : ListenerInfo} :
    (∀ (m : ListenerManager) (loopId : Nat) (addr : InetAddress) (s : HttpServer),
      env.supportsTls = true → l.useSSL = true →
      buildServerLinux env m gc gk g loopId l addr = Except.ok s →
      ∃ p, s.sslPolicy = some p ∧
        p.certPath = (if l.certFile == "" then gc else l.certFile) ∧
        p.keyPath = (if l.keyFile == "" then gk else l.keyFile)) ∧
    (∀ (threadLoop : Nat) (ioLoops : List Nat) (s : HttpServer),
      env.supportsTls = true → l.useSSL = true →
      buildServerNonLinux env gc gk g threadLoop ioLoops l = Except.ok s →
      ∃ p, s.sslPolicy = some p ∧
        p.certPath = (if l.certFile == "" then gc else l.certFile) ∧
        p.keyPath = (if l.keyFile == "" then gk else l.keyFile)) := by
  constructor
  · intro mgr loopId addr s htls hssl hok
    rw [buildServerLinux_eq] at hok
    cases hf : sslFatalCond env gc gk l with
    | true => rw [hf] at hok; simp at hok
    | false =>
      rw [hf] at hok
      simp only [Bool.false_eq_true, if_false, Except.ok.injEq] at hok
      refine ⟨linuxSslPolicy gc gk g l, ?_, ?_, ?_⟩
      · rw [← hok]
        exact linuxRealizedAt_ssl_on env mgr gc gk g loopId l addr (by simp [hssl, htls])
      · simp [linuxSslPolicy, effectiveCert]
      · simp [linuxSslPolicy, effectiveKey]
  · intro threadLoop ioLoops s htls hssl hok
    rw [buildServerNonLinux_eq] at hok
    cases hf : sslFatalCond env gc gk l with
    | true => rw [hf] at hok; simp at hok
    | false =>
      rw [hf] at hok
      simp only [Bool.false_eq_true, if_false, Except.ok.injEq] at hok
      refine ⟨nonLinuxSslPolicy gc gk g l, ?_, ?_, ?_⟩
      · rw [← hok]
        simp [nonLinuxRealized, hssl, htls]
      · simp [nonLinuxSslPolicy, effectiveCert]
      · simp [nonLinuxSslPolicy, effectiveKey]

/-- C3 witness: a spec with non-empty cert/key overriding non-empty globals
yields the spec's own material, under both strategies, on concrete runs. -/
theorem claim_C3_witness :
    (∃ p, (match buildServerLinux envReuse mgrPlain2 "gc" "gk" [("g", "h")] 10
            specSsl (listenAddressOf specSsl) with
          | Except.ok s => s
          | Except.error _ => default).sslPolicy = some p ∧
      p.certPath = (if specSsl.certFile == "" then "gc" else specSsl.certFile) ∧
      p.keyPath = (if specSsl.keyFile == "" then "gk" else specSsl.keyFile)) ∧
    (∃ p, (match buildServerNonLinux envReuse "gc" "gk" [("g", "h")] 9 [7, 8] specSsl with
          | Except.ok s => s
          | Except.error _ => default).sslPolicy = some p ∧
      p.certPath = (if specSsl.certFile == "" then "gc" else specSsl.certFile) ∧
      p.keyPath = (if specSsl.keyFile == "" then "gk" else specSsl.keyFile)) := by
  constructor
  · exact (@claim_C3 envReuse "gc" "gk" [("g", "h")] specSsl).1 mgrPlain2 10
      (listenAddressOf specSsl) _ rfl rfl (by decide)
  · exact (@claim_C3 envReuse "gc" "gk" [("g", "h")] specSsl).2 9 [7, 8] _ rfl rfl (by decide)

/-- C4 (amended): in every TLS-capable run in which some declared spec has
useSSL and an empty effective certificate or key path, createListeners
terminates fatally — under the capable strategy provided at least one worker
loop exists, under the non-capable strategy unconditionally.  A fatal
outcome carries no realized topology, so zero TLS-enabled instances are
realized. -/
theorem claim_C4 {env : Env} {gc gk : String} {g : List (String × String)}
    {m : ListenerManager} :
    (∀ (ioLoops : List Nat) (l : ListenerInfo),
      env.supportsTls = true → l.useSSL = true →
      (effectiveCert l gc == "" || effectiveKey l gk == "") = true →
      l ∈ m.listeners → ioLoops ≠ [] →
      ∃ e, (createListenersLinux env m gc gk g ioLoops).2 = Except.error e) ∧
    (∀ (ioLoops : List Nat) (threadLoop : Nat) (l : ListenerInfo),
      env.supportsTls = true → l.useSSL = true →
      (effectiveCert l gc == "" || effectiveKey l gk == "") = true →
      l ∈ m.listeners →
      ∃ e, (createListenersNonLinux env m gc gk g ioLoops threadLoop).2 = Except.error e) := by
  constructor
  · intro ioLoops l htls hssl hbad hmem hne
    rcases hr : createListenersLinux env m gc gk g ioLoops with ⟨tr, r⟩
    cases r with
    | error e => exact ⟨e, rfl⟩
    | ok m' =>
      exfalso
      obtain ⟨-, -, -, -, hconds⟩ := createListenersLinux_ok hr
      have hfalse := (hconds hne l hmem).2
      have htrue : sslFatalCond env gc gk l = true := by
        simp [sslFatalCond, hssl, htls, hbad]
      rw [htrue] at hfalse
      exact Bool.noConfusion hfalse
  · intro ioLoops threadLoop l htls hssl hbad hmem
    rcases hr : createListenersNonLinux env m gc gk g ioLoops threadLoop with ⟨tr, r⟩
    cases r with
    | error e => exact ⟨e, rfl⟩
    | ok m' =>
      exfalso
      have hlne : m.listeners ≠ [] := by
        intro hnil; rw [hnil] at hmem; simp at hmem
      obtain ⟨-, -, hne2⟩ := createListenersNonLinux_ok hr
      obtain ⟨-, -, -, hconds⟩ := hne2 hlne
      have hfalse := hconds l hmem
      have htrue : sslFatalCond env gc gk l = true := by
        simp [sslFatalCond, hssl, htls, hbad]
      rw [htrue] at hfalse
      exact Bool.noConfusion hfalse

/-- C4 counterexample: a TLS-capable run on the capable platform with a
useSSL spec lacking all material, but with zero worker loops: the code
iterates over no loops, so nothing is checked, no diagnostic is printed and
no termination occurs — refuting the claim over every TLS-capable run. -/
theorem claim_C4_counterexample :
    envReuse.supportsTls = true ∧
    specSslBad ∈ mgrSslBad.listeners ∧
    specSslBad.useSSL = true ∧
    (effectiveCert specSslBad "" == "" || effectiveKey specSslBad "" == "") = true ∧
    createListenersLinux envReuse mgrSslBad "" "" [] [] = ([], Except.ok mgrSslBad) := by
  refine ⟨rfl, by decide, rfl, by decide, by decide⟩

/-- C4 witness: the amended claim applied concretely under both strategies. -/
theorem claim_C4_witness :
    (∃ e, (createListenersLinux envReuse mgrSslBad "" "" [] [10]).2 = Except.error e) ∧
    (∃ e, (createListenersNonLinux envReuse mgrSslBad "" "" [] [7, 8] 9).2 =
      Except.error e) := by
  constructor
  · exact (@claim_C4 envReuse "" "" [] mgrSslBad).1 [10] specSslBad rfl rfl
      (by decide) (by decide) (by simp)
  · exact (@claim_C4 envReuse "" "" [] mgrSslBad).2 [7, 8] 9 specSslBad rfl rfl
      (by decide) (by decide)

/-- C5 (amended): under the capable per-loop strategy a realized TLS
instance's directive sequence is the global sequence followed by the spec's
own directives; under the non-capable dedicated-thread strategy the realized
directive sequence is the global sequence only — the spec's listener-specific
directives are not appended there. -/
theorem claim_C5 {env : Env} {gc gk : String} {g : List (String × String)}
    {l : ListenerInfo} :
    (∀ (m : ListenerManager) (loopId : Nat) (addr : InetAddress) (s : HttpServer),
      env.supportsTls = true → l.useSSL = true →
      buildServerLinux env m gc gk g loopId l addr = Except.ok s →
      ∃ p, s.sslPolicy = some p ∧ p.confCmds = g ++ l.sslConfCmds) ∧
    (∀ (threadLoop : Nat) (ioLoops : List Nat) (s : HttpServer),
      env.supportsTls = true → l.useSSL = true →
      buildServerNonLinux env gc gk g threadLoop ioLoops l = Except.ok s →
      ∃ p, s.sslPolicy = some p ∧ p.confCmds = g) := by
  constructor
  · intro mgr loopId addr s htls hssl hok
    rw [buildServerLinux_eq] at hok
    cases hf : sslFatalCond env gc gk l with
    | true => rw [hf] at hok; simp at hok
    | false =>
      rw [hf] at hok
      simp only [Bool.false_eq_true, if_false, Except.ok.injEq] at hok
      refine ⟨linuxSslPolicy gc gk g l, ?_, ?_⟩
      · rw [← hok]
        exact linuxRealizedAt_ssl_on env mgr gc gk g loopId l addr (by simp [hssl, htls])
      · simp [linuxSslPolicy]
  · intro threadLoop ioLoops s htls hssl hok
    rw [buildServerNonLinux_eq] at hok
    cases hf : sslFatalCond env gc gk l with
    | true => rw [hf] at hok; simp at hok
    | false =>
      rw [hf] at hok
      simp only [Bool.false_eq_true, if_false, Except.ok.injEq] at hok
      refine ⟨nonLinuxSslPolicy gc gk g l, ?_, ?_⟩
      · rw [← hok]
        simp [nonLinuxRealized, hssl, htls]
      · simp [nonLinuxSslPolicy]

/-- C5 counterexample: on the non-capable platform a realized TLS instance
carries only the global directives even though its spec declares its own —
refuting the global-followed-by-spec sequence under either strategy. -/
theorem claim_C5_counterexample :
    mgrSsl1.listeners = [specSsl] ∧
    specSsl.sslConfCmds = [("s", "t")] ∧
    ((okManager (createListenersNonLinux envReuse mgrSsl1 "gc" "gk"
        [("g", "h")] [7, 8] 9)).servers.map (fun s => s.sslPolicy)) =
      [some ⟨"c", "k", [("g", "h")], false⟩] ∧
    [("g", "h")] ≠ [("g", "h")] ++ specSsl.sslConfCmds := by
  refine ⟨rfl, rfl, by decide, by decide⟩

/-- C5 witness: the amended claim applied concretely under both strategies. -/
theorem claim_C5_witness :
    (∃ p, (match buildServerLinux envReuse mgrPlain2 "gc" "gk" [("g", "h")] 10
            specSsl (listenAddressOf specSsl) with
          | Except.ok s => s
          | Except.error _ => default).sslPolicy = some p ∧
      p.confCmds = [("g", "h")] ++ specSsl.sslConfCmds) ∧
    (∃ p, (match buildServerNonLinux envReuse "gc" "gk" [("g", "h")] 9 [7, 8] specSsl with
          | Except.ok s => s
          | Except.error _ => default).sslPolicy = some p ∧
      p.confCmds = [("g", "h")]) := by
  constructor
  · exact (@claim_C5 envReuse "gc" "gk" [("g", "h")] specSsl).1 mgrPlain2 10
      (listenAddressOf specSsl) _ rfl rfl (by decide)
  · exact (@claim_C5 envReuse "gc" "gk" [("g", "h")] specSsl).2 9 [7, 8] _ rfl rfl (by decide)

/-- C6 (amended): under the capable strategy with at least one worker loop,
a declared spec whose address fails to parse makes construction terminate
fatally; a colon in the literal selects IPv6 and anything else IPv4 under
both strategies (every realized server's address is the spec's literal with
that flag); but under the non-capable strategy no parse check is performed
at all — the instance is constructed regardless. -/
theorem claim_C6 {env : Env} {m : ListenerManager} {gc gk : String}
    {g : List (String × String)} :
    (∀ (ioLoops : List Nat), ioLoops ≠ [] →
      (∃ l ∈ m.listeners, env.isUnspecified (listenAddressOf l) = true) →
      ∃ e, (createListenersLinux env m gc gk g ioLoops).2 = Except.error e) ∧
    (∀ l : ListenerInfo, (listenAddressOf l).isIpv6 = l.ip.data.contains ':') ∧
    (∀ (ioLoops : List Nat) (tr : List Event) (m' : ListenerManager),
      createListenersLinux env m gc gk g ioLoops = (tr, Except.ok m') →
      ∀ s ∈ m'.servers, s ∈ m.servers ∨
        ∃ l ∈ m.listeners, s.addr = listenAddressOf l) ∧
    (∀ (ioLoops : List Nat) (threadLoop : Nat) (tr : List Event) (m' : ListenerManager),
      createListenersNonLinux env m gc gk g ioLoops threadLoop = (tr, Except.ok m') →
      ∀ s ∈ m'.servers, s ∈ m.servers ∨
        ∃ l ∈ m.listeners, s.addr = listenAddressOf l) := by
  refine ⟨?_, fun l => rfl, ?_, ?_⟩
  · intro ioLoops hne hbad
    rcases hr : createListenersLinux env m gc gk g ioLoops with ⟨tr, r⟩
    cases r with
    | error e => exact ⟨e, rfl⟩
    | ok m' =>
      exfalso
      obtain ⟨l, hl, hspec⟩ := hbad
      obtain ⟨-, -, -, -, hconds⟩ := createListenersLinux_ok hr
      have hfalse := (hconds hne l hl).1
      rw [hspec] at hfalse
      exact Bool.noConfusion hfalse
  · intro ioLoops tr m' h s hmem
    obtain ⟨-, -, hs, -, -⟩ := createListenersLinux_ok h
    rw [hs] at hmem
    rcases List.mem_append.mp hmem with hmem | hmem
    · exact Or.inl hmem
    · obtain ⟨loopId, l, hl, heq⟩ := mem_linuxServers hmem
      refine Or.inr ⟨l, hl, ?_⟩
      rw [heq]
      exact (linuxRealizedAt_base env m gc gk g loopId l (listenAddressOf l)).2.1
  · intro ioLoops threadLoop tr m' h s hmem
    obtain ⟨-, hempty, hne⟩ := createListenersNonLinux_ok h
    by_cases hl : m.listeners = []
    case pos =>
      rw [hempty hl] at hmem
      exact Or.inl hmem
    case neg =>
      obtain ⟨-, -, hs, -⟩ := hne hl
      rw [hs] at hmem
      rcases List.mem_append.mp hmem with hmem | hmem
      · exact Or.inl hmem
      · obtain ⟨l, hlmem, heq⟩ := List.mem_map.mp hmem
        refine Or.inr ⟨l, hlmem, ?_⟩
        rw [← heq]
        exact (nonLinuxRealized_base env gc gk g threadLoop ioLoops l).2.1

/-- C6 counterexample: on the non-capable platform a spec whose address
fails to parse does not abort construction — the instance is silently
constructed with the unparsed address, refuting the claim for that
strategy. -/
theorem claim_C6_counterexample :
    envBadParse.isUnspecified (listenAddressOf specPlain) = true ∧
    (createListenersNonLinux envBadParse mgrPlain1 "gc" "gk" [] [7] 9).1 = [] ∧
    ((okManager (createListenersNonLinux envBadParse mgrPlain1 "gc" "gk" [] [7] 9)).servers.map
      HttpServer.address) = [listenAddressOf specPlain] := by
  refine ⟨rfl, by decide, by decide⟩

/-- C6 witness: the amended claim applied concretely — fatal abort on the
capable strategy for an unparseable spec, the colon rule, and the realized
addresses under both strategies. -/
theorem claim_C6_witness :
    (∃ e, (createListenersLinux envBadParse mgrPlain1 "gc" "gk" [] [10]).2 =
      Except.error e) ∧
    (listenAddressOf specSsl).isIpv6 = specSsl.ip.data.contains ':' ∧
    ((okManager c1run).servers.getD 0 default ∈ mgrPlain2.servers ∨
      ∃ l ∈ mgrPlain2.listeners,
        ((okManager c1run).servers.getD 0 default).addr = listenAddressOf l) ∧
    ((okManager c2run).servers.getD 0 default ∈ mgrPlain2.servers ∨
      ∃ l ∈ mgrPlain2.listeners,
        ((okManager c2run).servers.getD 0 default).addr = listenAddressOf l) := by
  refine ⟨?_, ?_, ?_, ?_⟩
  · exact (@claim_C6 envBadParse mgrPlain1 "gc" "gk" []).1 [10] (by simp)
      ⟨specPlain, by decide, rfl⟩
  · exact (@claim_C6 envBadParse mgrPlain1 "gc" "gk" []).2.1 specSsl
  · exact (@claim_C6 envReuse mgrPlain2 "gc" "gk" [("g", "h")]).2.2.1 [10, 11] c1run.1
      (okManager c1run) (by decide) _ (by decide)
  · exact (@claim_C6 envReuse mgrPlain2 "gc" "gk" [("g", "h")]).2.2.2 [7, 8] 9 c2run.1
      (okManager c2run) (by decide) _ (by decide)

/-- C7 (amended): under the capable per-loop strategy every realized
instance carries exactly the manager's three callback slots as set before
createListeners (set ones installed identically, unset ones on none); under
the non-capable dedicated-thread strategy no callback is installed on any
realized instance. -/
theorem claim_C7 {env : Env} {m : ListenerManager} {gc gk : String}
    {g : List (String × String)} :
    (∀ (ioLoops : List Nat) (tr : List Event) (m' : ListenerManager),
      createListenersLinux env m gc gk g ioLoops = (tr, Except.ok m') →
      ∀ s ∈ m'.servers, s ∈ m.servers ∨
        (s.beforeListenSockOptCallback = m.beforeListenSetSockOptCallback ∧
         s.afterAcceptSockOptCallback = m.afterAcceptSetSockOptCallback ∧
         s.connectionCallback = m.connectionCallback)) ∧
    (∀ (ioLoops : List Nat) (threadLoop : Nat) (tr : List Event) (m' : ListenerManager),
      createListenersNonLinux env m gc gk g ioLoops threadLoop = (tr, Except.ok m') →
      ∀ s ∈ m'.servers, s ∈ m.servers ∨
        (s.beforeListenSockOptCallback = none ∧
         s.afterAcceptSockOptCallback = none ∧
         s.connectionCallback = none)) := by
  constructor
  · intro ioLoops tr m' h s hmem
    obtain ⟨-, -, hs, -, -⟩ := createListenersLinux_ok h
    rw [hs] at hmem
    rcases List.mem_append.mp hmem with hmem | hmem
    · exact Or.inl hmem
    · obtain ⟨loopId, l, hl, heq⟩ := mem_linuxServers hmem
      obtain ⟨-, -, hb, ha, hc⟩ :=
        linuxRealizedAt_base env m gc gk g loopId l (listenAddressOf l)
      rw [heq]
      exact Or.inr ⟨hb, ha, hc⟩
  · intro ioLoops threadLoop tr m' h s hmem
    obtain ⟨-, hempty, hne⟩ := createListenersNonLinux_ok h
    by_cases hl : m.listeners = []
    case pos =>
      rw [hempty hl] at hmem
      exact Or.inl hmem
    case neg =>
      obtain ⟨-, -, hs, -⟩ := hne hl
      rw [hs] at hmem
      rcases List.mem_append.mp hmem with hmem | hmem
      · exact Or.inl hmem
      · obtain ⟨l, hlmem, heq⟩ := List.mem_map.mp hmem
        obtain ⟨-, -, -, hb, ha, hc⟩ :=
          nonLinuxRealized_base env gc gk g threadLoop ioLoops l
        rw [← heq]
        exact Or.inr ⟨hb, ha, hc⟩

/-- C7 counterexample: a connection callback set before createListeners is
not installed on the instance realized under the non-capable strategy —
refuting identical installation under either strategy. -/
theorem claim_C7_counterexample :
    mgrPlain1.connectionCallback = some 3 ∧
    ((okManager (createListenersNonLinux envReuse mgrPlain1 "gc" "gk" [] [7] 9)).servers.map
      (fun s => s.connectionCallback)) = [none] ∧
    (none : Option Nat) ≠ some 3 := by
  refine ⟨rfl, by decide, by decide⟩

/-- C7 witness: the amended claim applied to concrete successful runs under
both strategies. -/
theorem claim_C7_witness :
    ((okManager c1run).servers.getD 0 default ∈ mgrPlain2.servers ∨
      (((okManager c1run).servers.getD 0 default).beforeListenSockOptCallback =
          mgrPlain2.beforeListenSetSockOptCallback ∧
        ((okManager c1run).servers.getD 0 default).afterAcceptSockOptCallback =
          mgrPlain2.afterAcceptSetSockOptCallback ∧
        ((okManager c1run).servers.getD 0 default).connectionCallback =
          mgrPlain2.connectionCallback)) ∧
    ((okManager c2run).servers.getD 0 default ∈ mgrPlain2.servers ∨
      (((okManager c2run).servers.getD 0 default).beforeListenSockOptCallback = none ∧
        ((okManager c2run).servers.getD 0 default).afterAcceptSockOptCallback = none ∧
        ((okManager c2run).servers.getD 0 default).connectionCallback = none)) := by
  constructor
  · exact (@claim_C7 envReuse mgrPlain2 "gc" "gk" [("g", "h")]).1 [10, 11] c1run.1
      (okManager c1run) (by decide) _ (by decide)
  · exact (@claim_C7 envReuse mgrPlain2 "gc" "gk" [("g", "h")]).2 [7, 8] 9 c2run.1
      (okManager c2run) (by decide) _ (by decide)

/-- C8: on the capable platform, in any run that completes, a bind probe
occurs only at worker-loop index 0 with the reuse-port capability disabled,
and whenever reuse-port is disabled every spec at loop index 0 yields, in
order, exclusive lock acquisition, the bind probe, the lock release at probe
scope end, and only then the construction of the real instance. -/
theorem claim_C8 {env : Env} {m : ListenerManager} {gc gk : String}
    {g : List (String × String)} {ioLoops : List Nat} {tr : List Event}
    {m' : ListenerManager}
    (h : createListenersLinux env m gc gk g ioLoops = (tr, Except.ok m')) :
    (∀ (i j : Nat) (a : InetAddress), Event.bindProbe i j a ∈ tr →
      i = 0 ∧ env.reusePort = false) ∧
    (env.reusePort = false → ioLoops ≠ [] → ∀ (j : Nat), j < m.listeners.length →
      List.Sublist
        [Event.lockAcquire 0 j,
         Event.bindProbe 0 j (listenAddressOf (m.listeners.getD j default)),
         Event.lockRelease 0 j, Event.construct 0 j]
        tr) := by
  obtain ⟨-, -, -, htr, -⟩ := createListenersLinux_ok h
  subst htr
  constructor
  · intro i j a hmem
    exact bindProbe_mem_loopsTrace hmem
  · intro hrp hne j hj
    rcases ioLoops with _ | ⟨l0, rest⟩
    · exact absurd rfl hne
    · have hblock := @stepTrace_sublist_specsTrace env 0 default m.listeners 0 j hj
      rw [Nat.zero_add] at hblock
      have hform : stepTrace env 0 j (m.listeners.getD j default) =
          [Event.lockAcquire 0 j,
           Event.bindProbe 0 j (listenAddressOf (m.listeners.getD j default)),
           Event.lockRelease 0 j, Event.construct 0 j] := by
        simp [stepTrace, hrp]
      rw [hform] at hblock
      have happ : List.Sublist (specsTrace env 0 0 m.listeners)
          (loopsTrace env m.listeners 0 (l0 :: rest)) := by
        simpa [loopsTrace] using List.sublist_append_left
          (specsTrace env 0 0 m.listeners) (loopsTrace env m.listeners 1 rest)
      exact hblock.trans happ

/-- A concrete successful capable-platform run with reuse-port disabled, so
the probe path is exercised. -/
def c8run : List Event × Except Fatal ListenerManager :=
  createListenersLinux envProbe mgrPlain2 "gc" "gk" [("g", "h")] [10]

/-- C8 witness: the lock/probe/release/construct order holds on a concrete
probing run. -/
theorem claim_C8_witness :
    List.Sublist
      [Event.lockAcquire 0 0,
       Event.bindProbe 0 0 (listenAddressOf (mgrPlain2.listeners.getD 0 default)),
       Event.lockRelease 0 0, Event.construct 0 0]
      c8run.1 := by
  have h : createListenersLinux envProbe mgrPlain2 "gc" "gk" [("g", "h")] [10] =
      (c8run.1, Except.ok (okManager c8run)) := by decide
  exact (claim_C8 h).2 rfl (by simp) 0 (by decide)

end Drogon
